import Mathlib

/-!
Shallow embedding of the query and search layer of the NodeJS job-listing API
(routes `jobs.js`, `search.js`, model `Job.js`, validation schemas).
Job records are modelled as a Lean structure; MongoDB query objects built by
the routes are modelled as typed filter structures, and query execution over
the store (a `List Job`) as filtering, stable sorting and slicing.  JavaScript
numbers that can be `NaN` (results of `parseInt` / `new Date` on malformed
text) are modelled as `Option Int` with `none` standing for `NaN` / an invalid
date.
-/

namespace JobAssistant

/-- Numeric value of a list of decimal digit characters. -/
def natOfDigits (ds : List Char) : Nat :=
  ds.foldl (fun n c => 10 * n + (c.toNat - 48)) 0

/-- Whitespace trimmed from both ends of a character list (structural model
of string trimming). -/
def trimChars (cs : List Char) : List Char :=
  ((cs.dropWhile Char.isWhitespace).reverse.dropWhile Char.isWhitespace).reverse

/-- JavaScript `s.trim()`. -/
def jsTrim (s : String) : String :=
  ⟨trimChars s.data⟩

/-- Split a character list on a separator character (structural model of
splitting a string on a one-character separator). -/
def splitChar (sep : Char) : List Char → List (List Char)
  | [] => [[]]
  | c :: cs =>
    if c == sep then [] :: splitChar sep cs
    else
      match splitChar sep cs with
      | [] => [[c]]
      | g :: gs => (c :: g) :: gs

/-- Decimal value of a non-empty all-digit character list. -/
def charsToNat? (cs : List Char) : Option Nat :=
  if !cs.isEmpty && cs.all Char.isDigit then some (natOfDigits cs) else none

/-- Model of JavaScript `parseInt` on a string: leading whitespace is skipped,
an optional sign is read, then the longest digit run; anything after the
digits is ignored.  `none` models `NaN` (no digits at all). -/
def parseIntJS (s : String) : Option Int :=
  match trimChars s.data with
  | '-' :: rest =>
    let ds := rest.takeWhile Char.isDigit
    if ds.isEmpty then none else some (-(natOfDigits ds : Int))
  | '+' :: rest =>
    let ds := rest.takeWhile Char.isDigit
    if ds.isEmpty then none else some ((natOfDigits ds : Int))
  | cs =>
    let ds := cs.takeWhile Char.isDigit
    if ds.isEmpty then none else some ((natOfDigits ds : Int))

/-- Model of JavaScript `new Date(s)` on an ISO `YYYY-MM-DD` string, encoded
as the integer `y * 10000 + m * 100 + d`, which is strictly monotone in
chronological order.  `none` models an Invalid Date (malformed input). -/
def parseDateJS (s : String) : Option Int :=
  match splitChar '-' (trimChars s.data) with
  | [ys, ms, ds] =>
    match charsToNat? ys, charsToNat? ms, charsToNat? ds with
    | some y, some m, some d =>
      if ys.length == 4 && 1 ≤ m && m ≤ 12 && 1 ≤ d && d ≤ 31 then
        some ((y * 10000 + m * 100 + d : Nat) : Int)
      else none
    | _, _, _ => none
  | _ => none

/-- The first list is an initial segment of the second. -/
def startsWithSeq : List Char → List Char → Bool
  | [], _ => true
  | _ :: _, [] => false
  | p :: ps, c :: cs => p == c && startsWithSeq ps cs

/-- The first list occurs as a contiguous segment of the second. -/
def containsSeq : List Char → List Char → Bool
  | pat, [] => pat.isEmpty
  | pat, c :: cs => startsWithSeq pat (c :: cs) || containsSeq pat cs

/-- Characters of a string, lower-cased. -/
def lowerChars (s : String) : List Char :=
  s.data.map Char.toLower

/-- Case-insensitive substring containment, the semantics of the
`{ $regex: pat, $options: 'i' }` conditions the routes build from plain
(metacharacter-free) filter text. -/
def containsCI (pat s : String) : Bool :=
  containsSeq (lowerChars pat) (lowerChars s)

/-- Lexicographic `≤` on strings as a Bool. -/
def strLeB (s t : String) : Bool := s == t || decide (s < t)

/-- The `salary` subdocument of a job record (`Job.js` lines 35-53);
`min`/`max` are optional. -/
structure Salary where
  min : Option Int := none
  max : Option Int := none
  currency : String := "USD"
  period : String := "yearly"
deriving DecidableEq, Repr

/-- A stored job record (`Job.js`).  Dates are integers in the encoding of
`parseDateJS` (for `postedDate` comparisons) or milliseconds (for expiry
arithmetic); the claims never mix the two uses on one field. -/
structure Job where
  id : Nat
  title : String
  company : String
  location : String
  description : String := ""
  jobType : String
  experienceLevel : Option String := none
  remote : String := "on-site"
  industry : Option String := none
  skills : List String := []
  salary : Salary := {}
  source : String := "manual"
  status : String := "active"
  postedDate : Int
  expiryDate : Option Int := none
  views : Nat := 0
  applications : Nat := 0
deriving DecidableEq, Repr

/-- Raw query parameters of `GET /api/jobs` (`jobs.js` lines 10-25); `none`
is an absent parameter. -/
structure ListingParams where
  page : Option String := none
  limit : Option String := none
  sort : Option String := none
  order : Option String := none
  status : Option String := none
  jobType : Option String := none
  remote : Option String := none
  experienceLevel : Option String := none
  industry : Option String := none
  location : Option String := none
  minSalary : Option String := none
  maxSalary : Option String := none
  skills : Option String := none
  company : Option String := none
deriving DecidableEq, Repr

/-- The normalized predicate both routes hand to the store.  `none` on a
field means the field puts no constraint; the doubled options on the numeric
and date bounds keep the distinction between "no bound" (`none`) and "bound
present but its value is NaN / an invalid date" (`some none`). -/
structure JobFilter where
  status : Option String := none
  jobType : Option String := none
  remote : Option String := none
  experienceLevel : Option String := none
  industry : Option String := none
  location : Option String := none
  company : Option String := none
  salaryMin : Option (Option Int) := none
  salaryMax : Option (Option Int) := none
  skills : Option (List String) := none
  postedAfter : Option (Option Int) := none
  postedBefore : Option (Option Int) := none
deriving DecidableEq, Repr

/-- The JavaScript `if (x)` truthiness guard on an optional string parameter:
the value is used only when present and non-empty. -/
def presentStr : Option String → Option String
  | some s => if s ≠ "" then some s else none
  | none => none

/-- Filter object built by the listing route (`jobs.js` lines 28-48).
`status` is taken from the destructuring default `'active'`; every other
field is guarded by truthiness; `minSalary`/`maxSalary` go through
`parseInt`; `skills` is split on commas and trimmed. -/
def compileListingFilter (p : ListingParams) : JobFilter :=
  { status := some (p.status.getD "active")
    jobType := presentStr p.jobType
    remote := presentStr p.remote
    experienceLevel := presentStr p.experienceLevel
    industry := presentStr p.industry
    location := presentStr p.location
    company := presentStr p.company
    salaryMin := (presentStr p.minSalary).map parseIntJS
    salaryMax := (presentStr p.maxSalary).map parseIntJS
    skills := (presentStr p.skills).map
      (fun s => (splitChar ',' s.data).map (fun cs => (⟨trimChars cs⟩ : String)))
    postedAfter := none
    postedBefore := none }

/-- The `filters` object of `GET /api/search` after `JSON.parse` (`search.js`
lines 21-26).  `skills` is kept only when the JSON value is an array
(`Array.isArray` guard); a `status` key may be present in the JSON but is
never read by the route. -/
structure SearchFilters where
  jobType : Option String := none
  remote : Option String := none
  experienceLevel : Option String := none
  industry : Option String := none
  location : Option String := none
  company : Option String := none
  minSalary : Option String := none
  maxSalary : Option String := none
  skills : Option (List String) := none
  postedAfter : Option String := none
  postedBefore : Option String := none
  status : Option String := none
deriving DecidableEq, Repr

/-- The full search query: optional `$text` search term plus the compiled
attribute filter. -/
structure SearchQuery where
  text : Option String := none
  filt : JobFilter := {}
deriving DecidableEq, Repr

/-- Search query built by the search route (`search.js` lines 28-72): a
`$text` condition when the query text is non-blank, the caller's filters, and
an unconditional `status: 'active'` written last. -/
def compileSearchQuery (q : Option String) (f : SearchFilters) : SearchQuery :=
  { text :=
      match q with
      | some s => if jsTrim s ≠ "" then some (jsTrim s) else none
      | none => none
    filt :=
      { status := some "active"
        jobType := presentStr f.jobType
        remote := presentStr f.remote
        experienceLevel := presentStr f.experienceLevel
        industry := presentStr f.industry
        location := presentStr f.location
        company := presentStr f.company
        salaryMin := (presentStr f.minSalary).map parseIntJS
        salaryMax := (presentStr f.maxSalary).map parseIntJS
        skills := f.skills
        postedAfter := (presentStr f.postedAfter).map parseDateJS
        postedBefore := (presentStr f.postedBefore).map parseDateJS } }

/-- Equality condition against a required string field. -/
def optEq (c : Option String) (v : String) : Bool :=
  match c with
  | none => true
  | some t => v == t

/-- Equality condition against an optional string field; a missing field never
matches an equality condition. -/
def optEqO (c : Option String) (v : Option String) : Bool :=
  match c with
  | none => true
  | some t => v == some t

/-- Case-insensitive regex condition against a required string field. -/
def optCI (c : Option String) (v : String) : Bool :=
  match c with
  | none => true
  | some t => containsCI t v

/-- Case-insensitive regex condition against an optional string field. -/
def optCIopt (c : Option String) (v : Option String) : Bool :=
  match c with
  | none => true
  | some t =>
    match v with
    | some s => containsCI t s
    | none => false

/-- `$gte` lower bound on an optional numeric field.  A `NaN` bound
(`some none`) compares below every number in BSON order, so any present
numeric value satisfies it; a missing field satisfies no bound. -/
def matchLb (c : Option (Option Int)) (v : Option Int) : Bool :=
  match c with
  | none => true
  | some none => v.isSome
  | some (some n) =>
    match v with
    | some x => n ≤ x
    | none => false

/-- `$lte` upper bound on an optional numeric field.  No number is `≤ NaN`
in BSON order, so a `NaN` bound matches nothing. -/
def matchUb (c : Option (Option Int)) (v : Option Int) : Bool :=
  match c with
  | none => true
  | some none => false
  | some (some n) =>
    match v with
    | some x => x ≤ n
    | none => false

/-- `$gte` lower bound on `postedDate` (always present).  An invalid-date
bound matches no document. -/
def matchDateLb (c : Option (Option Int)) (v : Int) : Bool :=
  match c with
  | none => true
  | some none => false
  | some (some t) => t ≤ v

/-- `$lte` upper bound on `postedDate`. -/
def matchDateUb (c : Option (Option Int)) (v : Int) : Bool :=
  match c with
  | none => true
  | some none => false
  | some (some t) => v ≤ t

/-- `$in` condition on the array field `skills`: some stored skill is among
the supplied values. -/
def matchSkills (c : Option (List String)) (sk : List String) : Bool :=
  match c with
  | none => true
  | some arr => sk.any (fun s => arr.contains s)

/-- A job record satisfies the compiled attribute filter. -/
def matchesFilter (f : JobFilter) (j : Job) : Bool :=
  optEq f.status j.status &&
  optEq f.jobType j.jobType &&
  optEq f.remote j.remote &&
  optEqO f.experienceLevel j.experienceLevel &&
  optCIopt f.industry j.industry &&
  optCI f.location j.location &&
  optCI f.company j.company &&
  matchLb f.salaryMin j.salary.min &&
  matchUb f.salaryMax j.salary.max &&
  matchSkills f.skills j.skills &&
  matchDateLb f.postedAfter j.postedDate &&
  matchDateUb f.postedBefore j.postedDate

/-- A job record satisfies the full search query; a `$text` condition is
satisfied exactly by the records the text index matches, i.e. those the
store scores positively. -/
def matchesSearch (score : String → Job → Nat) (sq : SearchQuery) (j : Job) : Bool :=
  (match sq.text with
   | none => true
   | some t => decide (0 < score t j)) &&
  matchesFilter sq.filt j

/-- A record of the search pipeline after the `$addFields` stage: the job
plus its `textScore` annotation (0 when no text search ran). -/
structure ScoredJob where
  job : Job
  score : Nat
deriving DecidableEq, Repr

/-- `$sort` key of the listing route: `sortObj[sort] = order === 'desc' ? -1 : 1`
for an arbitrary caller-supplied key string.  Keys not modelled here compare
all documents as equal, like a field absent from every record. -/
def listingKeyLeB (key : String) (a b : Job) : Bool :=
  match key with
  | "postedDate" => a.postedDate ≤ b.postedDate
  | "company" => strLeB a.company b.company
  | "location" => strLeB a.location b.location
  | "title" => strLeB a.title b.title
  | "views" => a.views ≤ b.views
  | _ => true

/-- Listing comparator as a Prop relation for the stable sort. -/
def listingLe (key : String) (desc : Bool) (a b : Job) : Prop :=
  (if desc then listingKeyLeB key b a else listingKeyLeB key a b) = true

instance (key : String) (desc : Bool) : DecidableRel (listingLe key desc) :=
  fun _ _ => instDecidableEqBool _ _

/-- The sort key the search route ends up with (`search.js` lines 33-36 and
74-93). -/
inductive SearchSortKey where
  | score
  | posted
  | salaryMax
  | companyAsc
  | locationAsc
deriving DecidableEq, Repr

/-- Resolution of the `sort` parameter: `relevance` with a text query sorts by
text score; `relevance` without a text query leaves `sortObj` empty, which the
aggregation stage rejects (`none`); any other value goes through the switch,
unrecognized values falling back to `postedDate` descending. -/
def searchSortKey (sortName : String) (hasText : Bool) : Option SearchSortKey :=
  if sortName == "relevance" then
    if hasText then some .score else none
  else
    some (match sortName with
      | "postedDate" => .posted
      | "salary" => .salaryMax
      | "company" => .companyAsc
      | "location" => .locationAsc
      | _ => .posted)

/-- BSON `≤` on an optional numeric field: a missing value sorts before every
number. -/
def bsonLeB : Option Int → Option Int → Bool
  | none, _ => true
  | some _, none => false
  | some u, some v => u ≤ v

/-- Search comparator for each sort key, as a Bool. -/
def searchLeB : SearchSortKey → ScoredJob → ScoredJob → Bool
  | .score, a, b => b.score ≤ a.score
  | .posted, a, b => b.job.postedDate ≤ a.job.postedDate
  | .salaryMax, a, b => bsonLeB b.job.salary.max a.job.salary.max
  | .companyAsc, a, b => strLeB a.job.company b.job.company
  | .locationAsc, a, b => strLeB a.job.location b.job.location

/-- Search comparator as a Prop relation for the stable sort. -/
def searchLe (k : SearchSortKey) (a b : ScoredJob) : Prop :=
  searchLeB k a b = true

instance (k : SearchSortKey) : DecidableRel (searchLe k) :=
  fun _ _ => instDecidableEqBool _ _

instance : IsTotal ScoredJob (searchLe .score) :=
  ⟨fun a b => by
    simp only [searchLe, searchLeB, decide_eq_true_eq]
    omega⟩

instance : IsTrans ScoredJob (searchLe .score) :=
  ⟨fun a b c h1 h2 => by
    simp only [searchLe, searchLeB, decide_eq_true_eq] at h1 h2 ⊢
    omega⟩

/-- `.skip((page-1)*limit).limit(limit)` applied to an ordered result set. -/
def paginate {α : Type} (l : List α) (pg lim : Int) : List α :=
  (l.drop ((pg - 1) * lim).toNat).take lim.toNat

/-- Model of `Math.ceil(total / limit)` on the nonnegative values the routes
feed it. -/
def mathCeilDiv (t l : Nat) : Nat :=
  if t % l == 0 then t / l else t / l + 1

/-- The pagination envelope both routes return. -/
structure Pagination where
  page : Int
  limit : Int
  total : Nat
  totalPages : Nat
  hasNext : Bool
  hasPrev : Bool
deriving DecidableEq, Repr

/-- `{ _id: { $in: ids } }, { $inc: { views: 1 } }` applied by `updateMany`:
every stored record whose id is listed gets its view counter bumped once. -/
def bumpViews (store : List Job) (ids : List Nat) : List Job :=
  store.map (fun j => if ids.contains j.id then { j with views := j.views + 1 } else j)

/-- `findById` against the store. -/
def findById (store : List Job) (i : Nat) : Option Job :=
  store.find? (fun j => j.id == i)

/-- Outcome of the listing route: the success envelope (returned page,
pagination, store after the view-count update) or the catch-all error
envelope. -/
inductive ListingResult where
  | ok (data : List Job) (pagination : Pagination) (newStore : List Job)
  | err (msg : String)
deriving DecidableEq, Repr

/-- `page` after destructuring default `1` and `parseInt`. -/
def listingPageVal (p : ListingParams) : Option Int :=
  match p.page with
  | none => some 1
  | some s => parseIntJS s

/-- `limit` after destructuring default `20` (`jobs.js` line 12) and
`parseInt`. -/
def listingLimitVal (p : ListingParams) : Option Int :=
  match p.limit with
  | none => some 20
  | some s => parseIntJS s

/-- Records matching the listing filter, in store order. -/
def listingMatched (store : List Job) (p : ListingParams) : List Job :=
  store.filter (fun j => matchesFilter (compileListingFilter p) j)

/-- Matching records after the `$sort` stage. -/
def listingSorted (store : List Job) (p : ListingParams) : List Job :=
  List.insertionSort
    (listingLe (p.sort.getD "postedDate") ((p.order.getD "desc") == "desc"))
    (listingMatched store p)

/-- The `GET /api/jobs` handler (`jobs.js` lines 8-95).  `incFails` says
whether the awaited `updateMany` view-count bump throws; a NaN or
non-positive page/limit makes the store reject the query, landing in the
same catch block as any other store failure. -/
def listingRun (store : List Job) (p : ListingParams) (incFails : Bool) : ListingResult :=
  match listingPageVal p, listingLimitVal p with
  | some pg, some lim =>
    if 1 ≤ pg ∧ 1 ≤ lim then
      if incFails then .err "Failed to fetch jobs"
      else
        .ok (paginate (listingSorted store p) pg lim)
          ⟨pg, lim, (listingMatched store p).length,
           mathCeilDiv (listingMatched store p).length lim.toNat,
           decide (pg < (mathCeilDiv (listingMatched store p).length lim.toNat : Int)),
           decide (1 < pg)⟩
          (bumpViews store ((paginate (listingSorted store p) pg lim).map (·.id)))
    else .err "Failed to fetch jobs"
  | _, _ => .err "Failed to fetch jobs"

/-- The returned page of a listing outcome (empty on the error envelope). -/
def listingData : ListingResult → List Job
  | .ok d _ _ => d
  | .err _ => []

/-- Outcome of the search route. -/
inductive SearchResult where
  | ok (data : List ScoredJob) (pagination : Pagination) (newStore : List Job)
  | err (msg : String)
deriving DecidableEq, Repr

/-- `page` of the search route after destructuring default `1`. -/
def searchPageVal (s : Option String) : Option Int :=
  match s with
  | none => some 1
  | some t => parseIntJS t

/-- `limit` of the search route after destructuring default `20`
(`search.js` line 12). -/
def searchLimitVal (s : Option String) : Option Int :=
  match s with
  | none => some 20
  | some t => parseIntJS t

/-- Records matching the search query, in store order. -/
def searchMatched (store : List Job) (score : String → Job → Nat)
    (sq : SearchQuery) : List Job :=
  store.filter (fun j => matchesSearch score sq j)

/-- The `$addFields: { score: { $meta: 'textScore' } }` stage, run only when a
text search was performed. -/
def searchScored (store : List Job) (score : String → Job → Nat)
    (sq : SearchQuery) : List ScoredJob :=
  (searchMatched store score sq).map
    (fun j => ⟨j, match sq.text with | some t => score t j | none => 0⟩)

/-- The sorted, scored result set of a search request. -/
def searchSorted (store : List Job) (score : String → Job → Nat) (sq : SearchQuery)
    (k : SearchSortKey) : List ScoredJob :=
  List.insertionSort (searchLe k) (searchScored store score sq)

/-- The `GET /api/search` handler (`search.js` lines 7-155). -/
def searchRun (store : List Job) (score : String → Job → Nat) (q : Option String)
    (pageS limitS sortS : Option String) (f : SearchFilters) (incFails : Bool) :
    SearchResult :=
  match searchPageVal pageS, searchLimitVal limitS with
  | some pg, some lim =>
    if 1 ≤ pg ∧ 1 ≤ lim then
      match searchSortKey (sortS.getD "relevance") (compileSearchQuery q f).text.isSome with
      | none => .err "Search failed"
      | some k =>
        if incFails then .err "Search failed"
        else
          .ok (paginate (searchSorted store score (compileSearchQuery q f) k) pg lim)
            ⟨pg, lim, (searchMatched store score (compileSearchQuery q f)).length,
             mathCeilDiv (searchMatched store score (compileSearchQuery q f)).length lim.toNat,
             decide (pg <
               (mathCeilDiv (searchMatched store score (compileSearchQuery q f)).length
                 lim.toNat : Int)),
             decide (1 < pg)⟩
            (bumpViews store
              ((paginate (searchSorted store score (compileSearchQuery q f) k) pg lim).map
                (·.job.id)))
    else .err "Search failed"
  | _, _ => .err "Search failed"

/-- The returned page of a search outcome (empty on the error envelope). -/
def searchData : SearchResult → List ScoredJob
  | .ok d _ _ => d
  | .err _ => []

/-- Payload of `GET /api/search/suggestions`: a plain list of values for the
typed scopes, tagged `(type, value)` pairs for the default `all` scope. -/
inductive SuggestionData where
  | plain (vs : List String)
  | tagged (vs : List (String × String))
deriving DecidableEq, Repr

/-- `Job.distinct(field, { field: { $regex: q, $options: 'i' }, status: 'active' }).limit(n)`
for a scalar string field.  Mongoose ignores `limit` on a `distinct` query —
the chained `.limit(n)` never reaches the `distinct` command — so all
distinct values of the matching records are returned, uncapped; the unused
`n` records the source's ineffective `.limit(n)` call. -/
def distinctField (store : List Job) (q : String) (get : Job → String) (_n : Nat) :
    List String :=
  ((store.filter (fun j => containsCI q (get j) && j.status == "active")).map get).dedup

/-- The same query on the array field `skills`: a record matches when some
stored skill contains the text, and the distinct values are drawn from all
skills of the matching records; the `.limit(n)` is again ignored by the
`distinct` command. -/
def distinctSkills (store : List Job) (q : String) (_n : Nat) : List String :=
  (((store.filter (fun j => j.skills.any (fun s => containsCI q s) && j.status == "active")).map
      (fun j => j.skills)).flatten).dedup

/-- The `GET /api/search/suggestions` handler (`search.js` lines 158-230).
The handler always answers with the success envelope; a missing or
under-length query short-circuits to an empty list. -/
def suggestionsRun (store : List Job) (qo : Option String) (tyo : Option String) :
    SuggestionData :=
  match qo with
  | none => .plain []
  | some q0 =>
    if (jsTrim q0).length < 2 then .plain []
    else
      match tyo.getD "all" with
      | "jobs" => .plain (distinctField store (jsTrim q0) (fun j => j.title) 10)
      | "companies" => .plain (distinctField store (jsTrim q0) (fun j => j.company) 10)
      | "locations" => .plain (distinctField store (jsTrim q0) (fun j => j.location) 10)
      | "skills" => .plain (distinctSkills store (jsTrim q0) 10)
      | _ => .tagged
          ((distinctField store (jsTrim q0) (fun j => j.title) 5).map (fun v => ("job", v)) ++
           (distinctField store (jsTrim q0) (fun j => j.company) 5).map
             (fun v => ("company", v)) ++
           (distinctField store (jsTrim q0) (fun j => j.location) 5).map
             (fun v => ("location", v)) ++
           (distinctSkills store (jsTrim q0) 5).map (fun v => ("skill", v)))

/-- The `$group: { _id: null, ... }` overview stage (`jobs.js` lines 252-266):
on an empty collection the stage emits no document at all. -/
structure Overview where
  totalJobs : Nat
  activeJobs : Nat
  totalViews : Nat
  totalApplications : Nat
deriving DecidableEq, Repr

/-- Result of the overview aggregation, `none` on an empty collection
(modelling `stats[0]` being `undefined`). -/
def overviewAgg (store : List Job) : Option Overview :=
  match store with
  | [] => none
  | _ => some
      ⟨store.length,
       (store.filter (fun j => j.status == "active")).length,
       (store.map (fun j => j.views)).sum,
       (store.map (fun j => j.applications)).sum⟩

/-- Count-descending comparator used by the `$sort: { count: -1 }` stages. -/
def countDesc (a b : String × Nat) : Prop := b.2 ≤ a.2

instance : DecidableRel countDesc := fun _ _ => Nat.decLe _ _

/-- `$group: { _id: field, count: { $sum: 1 } }` followed by
`$sort: { count: -1 }`. -/
def groupCounts (ks : List String) : List (String × Nat) :=
  List.insertionSort countDesc ((ks.dedup).map (fun k => (k, ks.count k)))

/-- Industry values present and non-empty
(`$match: { industry: { $exists: true, $ne: '' } }`). -/
def industriesOf (store : List Job) : List String :=
  (store.filterMap (fun j => j.industry)).filter (fun s => s ≠ "")

/-- Payload of `GET /api/jobs/stats/overview`. -/
structure StatsData where
  overview : Overview
  jobTypes : List (String × Nat)
  remoteOptions : List (String × Nat)
  topIndustries : List (String × Nat)
deriving DecidableEq, Repr

/-- The statistics-overview handler (`jobs.js` lines 250-307): the overview
falls back to all-zero fields via `stats[0] || { ... }` when the group stage
produced nothing. -/
def statsRun (store : List Job) : StatsData :=
  { overview := (overviewAgg store).getD ⟨0, 0, 0, 0⟩
    jobTypes := groupCounts (store.map (fun j => j.jobType))
    remoteOptions := groupCounts (store.map (fun j => j.remote))
    topIndustries := (groupCounts (industriesOf store)).take 10 }

/-- A validated job-creation payload (`postedDate` already defaulted by the
validation layer). -/
structure JobInput where
  title : String
  company : String
  location : String
  description : String := ""
  jobType : String
  experienceLevel : Option String := none
  remote : String := "on-site"
  industry : Option String := none
  skills : List String := []
  salary : Salary := {}
  source : String := "manual"
  status : String := "active"
  postedDate : Int
  expiryDate : Option Int := none
deriving DecidableEq, Repr

/-- Milliseconds per day, as in `30 * 24 * 60 * 60 * 1000`. -/
def msPerDay : Int := 24 * 60 * 60 * 1000

/-- The `pre('save')` hook (`Job.js` lines 169-175): an absent expiry date is
set to `postedDate` plus 30 days. -/
def preSave (j : Job) : Job :=
  if j.expiryDate.isNone then
    { j with expiryDate := some (j.postedDate + 30 * msPerDay) }
  else j

/-- `new Job(req.body)` followed by `save()` (`jobs.js` lines 127-146). -/
def createJob (id : Nat) (inp : JobInput) : Job :=
  preSave
    { id := id
      title := inp.title
      company := inp.company
      location := inp.location
      description := inp.description
      jobType := inp.jobType
      experienceLevel := inp.experienceLevel
      remote := inp.remote
      industry := inp.industry
      skills := inp.skills
      salary := inp.salary
      source := inp.source
      status := inp.status
      postedDate := inp.postedDate
      expiryDate := inp.expiryDate
      views := 0
      applications := 0 }

/-- A validated update payload: every field optional (`jobUpdateSchema`). -/
structure JobUpdate where
  title : Option String := none
  company : Option String := none
  location : Option String := none
  description : Option String := none
  jobType : Option String := none
  experienceLevel : Option String := none
  remote : Option String := none
  industry : Option String := none
  skills : Option (List String) := none
  salary : Option Salary := none
  source : Option String := none
  status : Option String := none
  postedDate : Option Int := none
  expiryDate : Option Int := none
deriving DecidableEq, Repr

/-- `findByIdAndUpdate(id, body)` (`jobs.js` lines 151-155): the supplied
fields are `$set`, everything else keeps its stored value; the `pre('save')`
hook does not run on this update path. -/
def applyUpdate (j : Job) (u : JobUpdate) : Job :=
  { j with
    title := u.title.getD j.title
    company := u.company.getD j.company
    location := u.location.getD j.location
    description := u.description.getD j.description
    jobType := u.jobType.getD j.jobType
    experienceLevel :=
      match u.experienceLevel with
      | some e => some e
      | none => j.experienceLevel
    remote := u.remote.getD j.remote
    industry :=
      match u.industry with
      | some i => some i
      | none => j.industry
    skills := u.skills.getD j.skills
    salary := u.salary.getD j.salary
    source := u.source.getD j.source
    status := u.status.getD j.status
    postedDate := u.postedDate.getD j.postedDate
    expiryDate :=
      match u.expiryDate with
      | some d => some d
      | none => j.expiryDate }

/-! Spec-side predicates used to state the claims. -/

/-- The spec's reading of the listing filters, clause by clause, for one
returned record: equality for the enum fields, case-insensitive substring
containment for industry/location/company, salary bounds, skills
intersection.  Numeric clauses apply when the parameter parses. -/
def ListingSatisfies (p : ListingParams) (j : Job) : Prop :=
  j.status = p.status.getD "active" ∧
  (∀ t, p.jobType = some t → t ≠ "" → j.jobType = t) ∧
  (∀ t, p.remote = some t → t ≠ "" → j.remote = t) ∧
  (∀ t, p.experienceLevel = some t → t ≠ "" → j.experienceLevel = some t) ∧
  (∀ t, p.industry = some t → t ≠ "" → ∃ s, j.industry = some s ∧ containsCI t s = true) ∧
  (∀ t, p.location = some t → t ≠ "" → containsCI t j.location = true) ∧
  (∀ t, p.company = some t → t ≠ "" → containsCI t j.company = true) ∧
  (∀ t n, p.minSalary = some t → t ≠ "" → parseIntJS t = some n →
    ∃ v, j.salary.min = some v ∧ n ≤ v) ∧
  (∀ t n, p.maxSalary = some t → t ≠ "" → parseIntJS t = some n →
    ∃ v, j.salary.max = some v ∧ v ≤ n) ∧
  (∀ t, p.skills = some t → t ≠ "" →
    ∃ s, s ∈ j.skills ∧ s ∈ (splitChar ',' t.data).map (fun cs => (⟨trimChars cs⟩ : String)))

/-- The spec's reading of the search filters for one returned record,
including the inclusive date bounds.  Date and numeric clauses apply when
the parameter parses. -/
def SearchSatisfies (f : SearchFilters) (j : Job) : Prop :=
  (∀ t, f.jobType = some t → t ≠ "" → j.jobType = t) ∧
  (∀ t, f.remote = some t → t ≠ "" → j.remote = t) ∧
  (∀ t, f.experienceLevel = some t → t ≠ "" → j.experienceLevel = some t) ∧
  (∀ t, f.industry = some t → t ≠ "" → ∃ s, j.industry = some s ∧ containsCI t s = true) ∧
  (∀ t, f.location = some t → t ≠ "" → containsCI t j.location = true) ∧
  (∀ t, f.company = some t → t ≠ "" → containsCI t j.company = true) ∧
  (∀ t n, f.minSalary = some t → t ≠ "" → parseIntJS t = some n →
    ∃ v, j.salary.min = some v ∧ n ≤ v) ∧
  (∀ t n, f.maxSalary = some t → t ≠ "" → parseIntJS t = some n →
    ∃ v, j.salary.max = some v ∧ v ≤ n) ∧
  (∀ arr, f.skills = some arr → ∃ s, s ∈ j.skills ∧ s ∈ arr) ∧
  (∀ t n, f.postedAfter = some t → t ≠ "" → parseDateJS t = some n → n ≤ j.postedDate) ∧
  (∀ t n, f.postedBefore = some t → t ≠ "" → parseDateJS t = some n → j.postedDate ≤ n)

/-- The spec's pagination contract for one listing page: the data is the
`(page-1)*limit`-offset slice of the sorted matching set, at most `limit`
records long; `total` counts all matching records before slicing;
`totalPages` is the ceiling of `total / limit`; `hasNext`/`hasPrev` compare
the page number with `totalPages` and `1`. -/
def ListingPageSpec (store : List Job) (p : ListingParams) (pg lim : Int) : Prop :=
  ∃ data env ns, listingRun store p false = .ok data env ns ∧
    data = ((listingSorted store p).drop ((pg - 1) * lim).toNat).take lim.toNat ∧
    data.length ≤ lim.toNat ∧
    env.page = pg ∧ env.limit = lim ∧
    env.total = (listingMatched store p).length ∧
    env.totalPages = Nat.ceil ((env.total : ℚ) / (lim.toNat : ℚ)) ∧
    (env.hasNext = true ↔ pg < (env.totalPages : Int)) ∧
    (env.hasPrev = true ↔ 1 < pg)

/-- The same pagination contract for one search page. -/
def SearchPageSpec (store : List Job) (score : String → Job → Nat) (q : Option String)
    (pageS limitS sortS : Option String) (f : SearchFilters) (k : SearchSortKey)
    (pg lim : Int) : Prop :=
  ∃ data env ns, searchRun store score q pageS limitS sortS f false = .ok data env ns ∧
    data = ((searchSorted store score (compileSearchQuery q f) k).drop
      ((pg - 1) * lim).toNat).take lim.toNat ∧
    data.length ≤ lim.toNat ∧
    env.page = pg ∧ env.limit = lim ∧
    env.total = (searchMatched store score (compileSearchQuery q f)).length ∧
    env.totalPages = Nat.ceil ((env.total : ℚ) / (lim.toNat : ℚ)) ∧
    (env.hasNext = true ↔ pg < (env.totalPages : Int)) ∧
    (env.hasPrev = true ↔ 1 < pg)

/-- Scores weakly decrease along the returned list. -/
def ScoreDescending (l : List ScoredJob) : Prop :=
  l.Pairwise (fun a b => b.score ≤ a.score)

/-- The query text is absent or blank after trimming. -/
def isBlankQ : Option String → Bool
  | none => true
  | some s => jsTrim s == ""

/-- The suggestion query text is absent or under two trimmed characters. -/
def isShortQ : Option String → Bool
  | none => true
  | some s => decide ((jsTrim s).length < 2)

/-- A suggestion value drawn from a scalar field of an active job whose
field case-insensitively contains the partial text. -/
def SuggValueFrom (store : List Job) (q : String) (get : Job → String) (v : String) :
    Prop :=
  ∃ j, j ∈ store ∧ j.status = "active" ∧ containsCI q (get j) = true ∧ get j = v

/-- A suggestion value drawn from the skills of an active job some skill of
which case-insensitively contains the partial text. -/
def SuggSkillFrom (store : List Job) (q : String) (v : String) : Prop :=
  ∃ j, j ∈ store ∧ j.status = "active" ∧
    j.skills.any (fun x => containsCI q x) = true ∧ v ∈ j.skills

/-- The values of one plain suggestion family: distinct, and each drawn from
the named field of an active matching job. -/
def PlainFamilyOk (store : List Job) (q : String) (get : Job → String)
    (vs : List String) : Prop :=
  vs.Nodup ∧ ∀ v ∈ vs, SuggValueFrom store q get v

/-- The values of the plain skills family: distinct, and each a skill of an
active matching job. -/
def SkillFamilyOk (store : List Job) (q : String) (vs : List String) : Prop :=
  vs.Nodup ∧ ∀ v ∈ vs, SuggSkillFrom store q v

/-- Every entry of the tagged `all` list carries its source family and a
value drawn from that family's field of an active matching job. -/
def TaggedFamilyOk (store : List Job) (q : String) (l : List (String × String)) :
    Prop :=
  ∀ x, x ∈ l →
    (x.1 = "job" ∧ SuggValueFrom store q (fun j => j.title) x.2) ∨
    (x.1 = "company" ∧ SuggValueFrom store q (fun j => j.company) x.2) ∨
    (x.1 = "location" ∧ SuggValueFrom store q (fun j => j.location) x.2) ∨
    (x.1 = "skill" ∧ SuggSkillFrom store q x.2)

/-! Sample records used by the concrete witnesses and counterexamples. -/

/-- Sample record: an active full-time job, the older of the two engineers. -/
def jA : Job :=
  { id := 1, title := "Senior Engineer", company := "Acme", location := "New York",
    jobType := "full-time", remote := "remote", experienceLevel := some "senior",
    industry := some "Tech", skills := ["python", "sql"],
    salary := { min := some 90000, max := some 120000 },
    postedDate := 20240101 }

/-- Sample record: an active full-time job, the newer of the two engineers. -/
def jB : Job :=
  { id := 2, title := "Engineer II", company := "Acme Labs", location := "SF",
    jobType := "full-time", skills := ["python"],
    salary := { min := some 85000, max := some 100000 },
    postedDate := 20240305 }

/-- Sample record: a draft part-time job. -/
def jC : Job :=
  { id := 3, title := "Junior Clerk", company := "Beta", location := "LA",
    jobType := "part-time", status := "draft", postedDate := 20240210 }

/-- Sample store. -/
def sampleStore : List Job := [jA, jB, jC]

/-- A degenerate store scoring function giving every record the same
positive text score; any conforming text index may produce such ties. -/
def constScore : String → Job → Nat := fun _ _ => 1

/-- A minimal creation payload without an expiry date. -/
def inpNoExpiry : JobInput :=
  { title := "T", company := "C", location := "L", jobType := "full-time",
    postedDate := 1000 }

/-- The same creation payload with an expiry date supplied. -/
def inpWithExpiry : JobInput :=
  { inpNoExpiry with expiryDate := some 5 }

/-- An active job with the given id and title, for exercising the
suggestions route. -/
def mkTitled (i : Nat) (t : String) : Job :=
  { id := i, title := t, company := "C", location := "L", jobType := "full-time",
    postedDate := 0 }

/-- Eleven active jobs with distinct titles all containing `en`: more
distinct title values than the 10 the suggestions route means to return. -/
def suggOverflowStore : List Job :=
  [mkTitled 11 "Engineer A", mkTitled 12 "Engineer B", mkTitled 13 "Engineer C",
   mkTitled 14 "Engineer D", mkTitled 15 "Engineer E", mkTitled 16 "Engineer F",
   mkTitled 17 "Engineer G", mkTitled 18 "Engineer H", mkTitled 19 "Engineer I",
   mkTitled 20 "Engineer J", mkTitled 21 "Engineer K"]

/-! Helper lemmas. -/

theorem mem_paginate {α : Type} {l : List α} {pg lim : Int} {x : α}
    (h : x ∈ paginate l pg lim) : x ∈ l := by
  unfold paginate at h
  exact List.mem_of_mem_drop (List.mem_of_mem_take h)

theorem paginate_sublist {α : Type} (l : List α) (pg lim : Int) :
    (paginate l pg lim).Sublist l :=
  ((l.drop ((pg - 1) * lim).toNat).take_sublist lim.toNat).trans
    (l.drop_sublist ((pg - 1) * lim).toNat)

theorem listingRun_ok_inv {store : List Job} {p : ListingParams} {incF : Bool}
    {data : List Job} {env : Pagination} {ns : List Job}
    (h : listingRun store p incF = .ok data env ns) :
    ∃ pg lim, listingPageVal p = some pg ∧ listingLimitVal p = some lim ∧
      data = paginate (listingSorted store p) pg lim ∧
      ns = bumpViews store (data.map (fun x => x.id)) := by
  unfold listingRun at h
  split at h
  next pg lim hp hl =>
    split at h
    · split at h
      · exact absurd h (by simp)
      · injection h with h1 h2 h3
        subst h1; subst h3
        exact ⟨pg, lim, hp, hl, rfl, rfl⟩
    · exact absurd h (by simp)
  next => exact absurd h (by simp)

theorem mem_listing {store : List Job} {p : ListingParams} {incF : Bool} {j : Job}
    (h : j ∈ listingData (listingRun store p incF)) :
    j ∈ store ∧ matchesFilter (compileListingFilter p) j = true := by
  rcases hrun : listingRun store p incF with ⟨data, env, ns⟩ | msg
  · rw [hrun] at h
    simp only [listingData] at h
    obtain ⟨pg, lim, _, _, hdata, _⟩ := listingRun_ok_inv hrun
    rw [hdata] at h
    have h2 := mem_paginate h
    rw [listingSorted, List.mem_insertionSort] at h2
    exact List.mem_filter.mp h2
  · rw [hrun] at h
    simp [listingData] at h

theorem searchRun_ok_inv {store : List Job} {score : String → Job → Nat}
    {q ps ls ss : Option String} {f : SearchFilters} {incF : Bool}
    {data : List ScoredJob} {env : Pagination} {ns : List Job}
    (h : searchRun store score q ps ls ss f incF = .ok data env ns) :
    ∃ pg lim k, searchPageVal ps = some pg ∧ searchLimitVal ls = some lim ∧
      searchSortKey (ss.getD "relevance") (compileSearchQuery q f).text.isSome = some k ∧
      data = paginate (searchSorted store score (compileSearchQuery q f) k) pg lim ∧
      ns = bumpViews store (data.map (fun x => x.job.id)) := by
  unfold searchRun at h
  split at h
  next pg lim hp hl =>
    split at h
    · split at h
      next => exact absurd h (by simp)
      next k hk =>
        split at h
        · exact absurd h (by simp)
        · injection h with h1 h2 h3
          subst h1; subst h3
          exact ⟨pg, lim, k, hp, hl, hk, rfl, rfl⟩
    · exact absurd h (by simp)
  next => exact absurd h (by simp)

theorem mem_search {store : List Job} {score : String → Job → Nat}
    {q ps ls ss : Option String} {f : SearchFilters} {incF : Bool} {sj : ScoredJob}
    (h : sj ∈ searchData (searchRun store score q ps ls ss f incF)) :
    sj.job ∈ store ∧ matchesSearch score (compileSearchQuery q f) sj.job = true := by
  rcases hrun : searchRun store score q ps ls ss f incF with ⟨data, env, ns⟩ | msg
  · rw [hrun] at h
    simp only [searchData] at h
    obtain ⟨pg, lim, k, _, _, _, hdata, _⟩ := searchRun_ok_inv hrun
    rw [hdata] at h
    have h2 := mem_paginate h
    rw [searchSorted, List.mem_insertionSort] at h2
    rw [searchScored] at h2
    obtain ⟨a, ha, hsj⟩ := List.mem_map.mp h2
    have hja : sj.job = a := by rw [← hsj]
    rw [hja]
    exact List.mem_filter.mp ha
  · rw [hrun] at h
    simp [searchData] at h

theorem optEq_some {t v : String} (h : optEq (some t) v = true) : v = t := by
  simpa [optEq] using h

theorem optEqO_some {t : String} {v : Option String} (h : optEqO (some t) v = true) :
    v = some t := by
  simpa [optEqO] using h

theorem optCI_some {t v : String} (h : optCI (some t) v = true) : containsCI t v = true := by
  simpa [optCI] using h

theorem optCIopt_some {t : String} {v : Option String} (h : optCIopt (some t) v = true) :
    ∃ s, v = some s ∧ containsCI t s = true := by
  cases v with
  | none => simp [optCIopt] at h
  | some s => exact ⟨s, rfl, by simpa [optCIopt] using h⟩

theorem matchLb_some {n : Int} {v : Option Int} (h : matchLb (some (some n)) v = true) :
    ∃ x, v = some x ∧ n ≤ x := by
  cases v with
  | none => simp [matchLb] at h
  | some x => exact ⟨x, rfl, by simpa [matchLb] using h⟩

theorem matchUb_some {n : Int} {v : Option Int} (h : matchUb (some (some n)) v = true) :
    ∃ x, v = some x ∧ x ≤ n := by
  cases v with
  | none => simp [matchUb] at h
  | some x => exact ⟨x, rfl, by simpa [matchUb] using h⟩

theorem matchSkills_some {arr sk : List String} (h : matchSkills (some arr) sk = true) :
    ∃ s, s ∈ sk ∧ s ∈ arr := by
  simp only [matchSkills, List.any_eq_true] at h
  obtain ⟨s, hs, hc⟩ := h
  exact ⟨s, hs, by simpa using hc⟩

theorem matchDateLb_some {t v : Int} (h : matchDateLb (some (some t)) v = true) : t ≤ v := by
  simpa [matchDateLb] using h

theorem matchDateUb_some {t v : Int} (h : matchDateUb (some (some t)) v = true) : v ≤ t := by
  simpa [matchDateUb] using h

/-! Easy claims first. -/

/-- C10: on an empty job collection the statistics-overview operation still
produces the all-zero overview (via the fallback for the empty group stage)
and empty jobType, remote-option, and industry breakdowns. -/
theorem claim10_empty_stats :
    statsRun [] = ⟨⟨0, 0, 0, 0⟩, [], [], []⟩ ∧ overviewAgg [] = none :=
  ⟨rfl, rfl⟩

/-- C8: creating a job without an expiry date stores `postedDate` plus
exactly 30 days; a supplied expiry date is stored unchanged; a general
update that does not supply `expiryDate` leaves the stored value unchanged. -/
theorem claim8_expiry (id : Nat) (inp : JobInput) (j : Job) (u : JobUpdate) :
    (inp.expiryDate = none →
      (createJob id inp).expiryDate = some (inp.postedDate + 30 * msPerDay)) ∧
    (∀ d, inp.expiryDate = some d → (createJob id inp).expiryDate = some d) ∧
    (u.expiryDate = none → (applyUpdate j u).expiryDate = j.expiryDate) := by
  refine ⟨?_, ?_, ?_⟩
  · intro h
    simp [createJob, preSave, h]
  · intro d h
    simp [createJob, preSave, h]
  · intro h
    simp [applyUpdate, h]

/-- C8 witness: evaluated at a concrete creation payload and update. -/
theorem claim8_witness :
    (createJob 7 inpNoExpiry).expiryDate = some (1000 + 30 * msPerDay) ∧
    (createJob 7 inpWithExpiry).expiryDate = some 5 ∧
    (applyUpdate jA { title := some "X" }).expiryDate = jA.expiryDate :=
  ⟨(claim8_expiry 7 inpNoExpiry jA { title := some "X" }).1 rfl,
   (claim8_expiry 7 inpWithExpiry jA { title := some "X" }).2.1 5 rfl,
   (claim8_expiry 7 inpNoExpiry jA { title := some "X" }).2.2 rfl⟩

/-- C6: with no page or limit parameter the listing route applies page 1 and
limit 20 (`jobs.js` line 12, contradicting the documented default of 10),
and the search route applies page 1 and limit 20. -/
theorem claim6_defaults :
    listingPageVal {} = some 1 ∧ listingLimitVal {} = some 20 ∧
    searchPageVal none = some 1 ∧ searchLimitVal none = some 20 :=
  ⟨rfl, rfl, rfl, rfl⟩

/-- C4 counterexample: a malformed `minSalary` (listing) or `postedAfter`
(search) is not treated as absent — the compiled predicate differs from the
one compiled without the parameter. -/
theorem claim4_counterexample :
    compileListingFilter { minSalary := some "abc" } ≠ compileListingFilter {} ∧
    compileSearchQuery none { postedAfter := some "garbage" } ≠
      compileSearchQuery none {} :=
  ⟨by decide, by decide⟩

/-- C4 amended: a present, non-empty numeric or date parameter always
compiles to a bound holding its parse result — a NaN or invalid-date value
when malformed — so the constraint stays in the predicate; the compiler
itself is total and never fails. -/
theorem claim4_amended (p : ListingParams) (f : SearchFilters) (q : Option String)
    (t : String) :
    (p.minSalary = some t → t ≠ "" →
      (compileListingFilter p).salaryMin = some (parseIntJS t)) ∧
    (p.maxSalary = some t → t ≠ "" →
      (compileListingFilter p).salaryMax = some (parseIntJS t)) ∧
    (f.postedAfter = some t → t ≠ "" →
      (compileSearchQuery q f).filt.postedAfter = some (parseDateJS t)) ∧
    (f.postedBefore = some t → t ≠ "" →
      (compileSearchQuery q f).filt.postedBefore = some (parseDateJS t)) := by
  refine ⟨?_, ?_, ?_, ?_⟩ <;> intro h hne <;>
    simp [compileListingFilter, compileSearchQuery, presentStr, h, hne]

theorem matches_listing_spec (p : ListingParams) (j : Job)
    (h : matchesFilter (compileListingFilter p) j = true) : ListingSatisfies p j := by
  simp only [matchesFilter, compileListingFilter, Bool.and_eq_true, and_assoc] at h
  obtain ⟨h1, h2, h3, h4, h5, h6, h7, h8, h9, h10, _, _⟩ := h
  refine ⟨optEq_some h1, ?_, ?_, ?_, ?_, ?_, ?_, ?_, ?_, ?_⟩
  · intro t ht hne
    rw [ht] at h2
    simp only [presentStr, if_pos hne] at h2
    exact optEq_some h2
  · intro t ht hne
    rw [ht] at h3
    simp only [presentStr, if_pos hne] at h3
    exact optEq_some h3
  · intro t ht hne
    rw [ht] at h4
    simp only [presentStr, if_pos hne] at h4
    exact optEqO_some h4
  · intro t ht hne
    rw [ht] at h5
    simp only [presentStr, if_pos hne] at h5
    exact optCIopt_some h5
  · intro t ht hne
    rw [ht] at h6
    simp only [presentStr, if_pos hne] at h6
    exact optCI_some h6
  · intro t ht hne
    rw [ht] at h7
    simp only [presentStr, if_pos hne] at h7
    exact optCI_some h7
  · intro t n ht hne hn
    rw [ht] at h8
    simp only [presentStr, if_pos hne, Option.map_some'] at h8
    rw [hn] at h8
    exact matchLb_some h8
  · intro t n ht hne hn
    rw [ht] at h9
    simp only [presentStr, if_pos hne, Option.map_some'] at h9
    rw [hn] at h9
    exact matchUb_some h9
  · intro t ht hne
    rw [ht] at h10
    simp only [presentStr, if_pos hne, Option.map_some'] at h10
    exact matchSkills_some h10

theorem matches_search_spec (q : Option String) (f : SearchFilters) (j : Job)
    (h : matchesFilter (compileSearchQuery q f).filt j = true) : SearchSatisfies f j := by
  simp only [matchesFilter, compileSearchQuery, Bool.and_eq_true, and_assoc] at h
  obtain ⟨_, h2, h3, h4, h5, h6, h7, h8, h9, h10, h11, h12⟩ := h
  refine ⟨?_, ?_, ?_, ?_, ?_, ?_, ?_, ?_, ?_, ?_, ?_⟩
  · intro t ht hne
    rw [ht] at h2
    simp only [presentStr, if_pos hne] at h2
    exact optEq_some h2
  · intro t ht hne
    rw [ht] at h3
    simp only [presentStr, if_pos hne] at h3
    exact optEq_some h3
  · intro t ht hne
    rw [ht] at h4
    simp only [presentStr, if_pos hne] at h4
    exact optEqO_some h4
  · intro t ht hne
    rw [ht] at h5
    simp only [presentStr, if_pos hne] at h5
    exact optCIopt_some h5
  · intro t ht hne
    rw [ht] at h6
    simp only [presentStr, if_pos hne] at h6
    exact optCI_some h6
  · intro t ht hne
    rw [ht] at h7
    simp only [presentStr, if_pos hne] at h7
    exact optCI_some h7
  · intro t n ht hne hn
    rw [ht] at h8
    simp only [presentStr, if_pos hne, Option.map_some'] at h8
    rw [hn] at h8
    exact matchLb_some h8
  · intro t n ht hne hn
    rw [ht] at h9
    simp only [presentStr, if_pos hne, Option.map_some'] at h9
    rw [hn] at h9
    exact matchUb_some h9
  · intro arr harr
    rw [harr] at h10
    exact matchSkills_some h10
  · intro t n ht hne hn
    rw [ht] at h11
    simp only [presentStr, if_pos hne, Option.map_some'] at h11
    rw [hn] at h11
    exact matchDateLb_some h11
  · intro t n ht hne hn
    rw [ht] at h12
    simp only [presentStr, if_pos hne, Option.map_some'] at h12
    rw [hn] at h12
    exact matchDateUb_some h12

/-- C1: every record in a returned listing page satisfies every filter the
listing request specified, and every record in a returned search page
satisfies every filter the search request specified (for the parameters
each route recognizes; well-formed numeric and date values). -/
theorem claim1_no_false_positives :
    (∀ store p incF j, j ∈ listingData (listingRun store p incF) →
      ListingSatisfies p j) ∧
    (∀ store score q ps ls ss f incF sj,
      sj ∈ searchData (searchRun store score q ps ls ss f incF) →
      SearchSatisfies f sj.job) := by
  constructor
  · intro store p incF j h
    exact matches_listing_spec p j (mem_listing h).2
  · intro store score q ps ls ss f incF sj h
    have h2 := (mem_search h).2
    simp only [matchesSearch, Bool.and_eq_true] at h2
    exact matches_search_spec q f sj.job h2.2

/-- C3: the listing predicate constrains status to the caller's value or the
default `active`; the search predicate constrains status to `active`
unconditionally, ignoring any status in the caller's filters object, so
every search result is an active job. -/
theorem claim3_status :
    (∀ p, (compileListingFilter p).status = some (p.status.getD "active")) ∧
    (∀ q f, (compileSearchQuery q f).filt.status = some "active") ∧
    (∀ store p incF j, j ∈ listingData (listingRun store p incF) →
      j.status = p.status.getD "active") ∧
    (∀ store score q ps ls ss f incF sj,
      sj ∈ searchData (searchRun store score q ps ls ss f incF) →
      sj.job.status = "active") := by
  refine ⟨fun p => rfl, fun q f => rfl, ?_, ?_⟩
  · intro store p incF j h
    exact (matches_listing_spec p j (mem_listing h).2).1
  · intro store score q ps ls ss f incF sj h
    have h2 := (mem_search h).2
    simp only [matchesSearch, matchesFilter, compileSearchQuery, Bool.and_eq_true,
      and_assoc] at h2
    exact optEq_some h2.2.1

/-- C1 witness: a concrete record returned for a concrete filtered listing
and a concrete filtered search satisfies the spec's clauses. -/
theorem claim1_witness :
    ListingSatisfies
      { jobType := some "full-time", minSalary := some "80000",
        skills := some "python, go", location := some "new" } jA ∧
    SearchSatisfies { minSalary := some "80000", postedAfter := some "2023-12-31" } jA :=
  ⟨claim1_no_false_positives.1 sampleStore
      { jobType := some "full-time", minSalary := some "80000",
        skills := some "python, go", location := some "new" } false jA (by decide),
   claim1_no_false_positives.2 sampleStore constScore (some "python") none none none
      { minSalary := some "80000", postedAfter := some "2023-12-31" } false
      ⟨jA, 1⟩ (by decide)⟩

/-- C3 witness: the status constraint evaluated at concrete requests — a
listing with a caller-supplied status keeps it, while a search ignores the
caller's status and returns only active jobs. -/
theorem claim3_witness :
    (compileListingFilter { status := some "draft" }).status = some "draft" ∧
    (compileSearchQuery none { status := some "draft" }).filt.status = some "active" ∧
    jC.status = "draft" ∧ jA.status = "active" :=
  ⟨claim3_status.1 { status := some "draft" },
   claim3_status.2.1 none { status := some "draft" },
   claim3_status.2.2.1 sampleStore { status := some "draft" } false jC (by decide),
   claim3_status.2.2.2 sampleStore constScore (some "xy") none none none {} false
     ⟨jA, 1⟩ (by decide)⟩

theorem mathCeilDiv_eq_ceil (t l : Nat) (hl : 0 < l) :
    mathCeilDiv t l = Nat.ceil ((t : ℚ) / (l : ℚ)) := by
  have hl' : (0 : ℚ) < l := by exact_mod_cast hl
  have hmod : t / l * l + t % l = t := by
    rw [Nat.mul_comm (t / l) l]
    exact Nat.div_add_mod t l
  by_cases hd : t % l = 0
  · have hdvd : l ∣ t := Nat.dvd_of_mod_eq_zero hd
    have hc : ((t / l : ℕ) : ℚ) = (t : ℚ) / l := Rat.natCast_div t l hdvd
    rw [mathCeilDiv, if_pos (by simpa using hd), ← hc, Nat.ceil_natCast]
  · rw [mathCeilDiv, if_neg (by simpa using hd)]
    symm
    rw [Nat.ceil_eq_iff (Nat.succ_ne_zero (t / l))]
    have hml : t % l < l := Nat.mod_lt t hl
    constructor
    · have hcast : t / l + 1 - 1 = t / l := Nat.add_sub_cancel (t / l) 1
      rw [hcast, lt_div_iff₀ hl']
      have hpos : 0 < t % l := Nat.pos_of_ne_zero hd
      have h2 : t / l * l < t := by
        calc t / l * l < t / l * l + t % l := Nat.lt_add_of_pos_right hpos
          _ = t := hmod
      exact_mod_cast h2
    · rw [div_le_iff₀ hl']
      have h2 : t ≤ (t / l + 1) * l := by
        calc t = t / l * l + t % l := hmod.symm
          _ ≤ t / l * l + l := Nat.add_le_add_left (le_of_lt hml) _
          _ = (t / l + 1) * l := by ring
      exact_mod_cast h2

/-- C2: with positive integer page and limit, the listing and search routes
return the `(page-1)*limit`-offset slice of the sorted matching set, at most
`limit` records long, with `total` counting all matching records before
slicing, `totalPages = ceil(total/limit)`, `hasNext ↔ page < totalPages` and
`hasPrev ↔ page > 1`. -/
theorem claim2_pagination :
    (∀ store p pg lim, listingPageVal p = some pg → listingLimitVal p = some lim →
      1 ≤ pg → 1 ≤ lim → ListingPageSpec store p pg lim) ∧
    (∀ store score q ps ls ss f pg lim k,
      searchPageVal ps = some pg → searchLimitVal ls = some lim →
      1 ≤ pg → 1 ≤ lim →
      searchSortKey (ss.getD "relevance") (compileSearchQuery q f).text.isSome = some k →
      SearchPageSpec store score q ps ls ss f k pg lim) := by
  constructor
  · intro store p pg lim hp hl h1 h2
    have hlt : 0 < lim.toNat := by omega
    refine ⟨paginate (listingSorted store p) pg lim,
      ⟨pg, lim, (listingMatched store p).length,
       mathCeilDiv (listingMatched store p).length lim.toNat,
       decide (pg < (mathCeilDiv (listingMatched store p).length lim.toNat : Int)),
       decide (1 < pg)⟩,
      bumpViews store ((paginate (listingSorted store p) pg lim).map (·.id)),
      ?_, rfl, ?_, rfl, rfl, rfl, ?_, ?_, ?_⟩
    · unfold listingRun
      rw [hp, hl]
      dsimp only
      rw [if_pos ⟨h1, h2⟩, if_neg (by simp)]
    · exact List.length_take_le _ _
    · exact mathCeilDiv_eq_ceil _ _ hlt
    · exact decide_eq_true_iff
    · exact decide_eq_true_iff
  · intro store score q ps ls ss f pg lim k hp hl h1 h2 hk
    have hlt : 0 < lim.toNat := by omega
    refine ⟨paginate (searchSorted store score (compileSearchQuery q f) k) pg lim,
      ⟨pg, lim, (searchMatched store score (compileSearchQuery q f)).length,
       mathCeilDiv (searchMatched store score (compileSearchQuery q f)).length lim.toNat,
       decide (pg <
         (mathCeilDiv (searchMatched store score (compileSearchQuery q f)).length
           lim.toNat : Int)),
       decide (1 < pg)⟩,
      bumpViews store
        ((paginate (searchSorted store score (compileSearchQuery q f) k) pg lim).map
          (·.job.id)),
      ?_, rfl, ?_, rfl, rfl, rfl, ?_, ?_, ?_⟩
    · unfold searchRun
      rw [hp, hl]
      dsimp only
      rw [if_pos ⟨h1, h2⟩, hk]
      dsimp only
      rw [if_neg (by simp)]
    · exact List.length_take_le _ _
    · exact mathCeilDiv_eq_ceil _ _ hlt
    · exact decide_eq_true_iff
    · exact decide_eq_true_iff

/-- C2 witness: page 1 of size 2 over the three-record sample store, for
listing and search. -/
theorem claim2_witness :
    ListingPageSpec sampleStore { page := some "1", limit := some "2" } 1 2 ∧
    SearchPageSpec sampleStore constScore (some "engineer") (some "1") (some "2") none {}
      .score 1 2 :=
  ⟨claim2_pagination.1 sampleStore { page := some "1", limit := some "2" } 1 2
      (by decide) (by decide) (by decide) (by decide),
   claim2_pagination.2 sampleStore constScore (some "engineer") (some "1") (some "2")
      none {} 1 2 .score (by decide) (by decide) (by decide) (by decide) (by decide)⟩

/-- C5 counterexample: two records with equal relevance scores come back in
store order — the first returned record has the older `postedDate` — so ties
are not broken by `postedDate` descending as claimed. -/
theorem claim5_counterexample :
    searchData (searchRun [jA, jB] constScore (some "engineer") none none none {} false) =
      [⟨jA, 1⟩, ⟨jB, 1⟩] ∧ jA.postedDate < jB.postedDate := by
  constructor
  · decide
  · decide

/-- C5 amended: with a non-empty text query under the relevance sort the
returned page is ordered by descending relevance score only — ties keep
store order, with no `postedDate` tie-break; a blank or absent query
compiles the same query as no query at all (the text stage is a no-op); and
the relevance sort without a text query makes the request fail. -/
theorem claim5_amended :
    (∀ store score q s ps ls ss f, q = some s → jsTrim s ≠ "" →
      ss.getD "relevance" = "relevance" →
      ScoreDescending (searchData (searchRun store score q ps ls ss f false))) ∧
    (∀ q f, isBlankQ q = true → compileSearchQuery q f = compileSearchQuery none f) ∧
    (∀ store score ps ls ss f incF, ss.getD "relevance" = "relevance" →
      searchRun store score none ps ls ss f incF = .err "Search failed") := by
  refine ⟨?_, ?_, ?_⟩
  · intro store score q s ps ls ss f hq hs hss
    rcases hrun : searchRun store score q ps ls ss f false with ⟨data, env, ns⟩ | msg
    · obtain ⟨pg, lim, k, _, _, hk, hdata, _⟩ := searchRun_ok_inv hrun
      have htext : (compileSearchQuery q f).text = some (jsTrim s) := by
        simp [compileSearchQuery, hq, hs]
      rw [hss, htext] at hk
      simp only [searchSortKey, Option.isSome_some, if_pos, beq_self_eq_true,
        if_true, Option.some_inj] at hk
      subst hk
      simp only [searchData]
      rw [hdata]
      have hsorted : List.Sorted (searchLe .score)
          (searchSorted store score (compileSearchQuery q f) .score) :=
        List.sorted_insertionSort _ _
      have hsub := paginate_sublist
        (searchSorted store score (compileSearchQuery q f) .score) pg lim
      have hpw := hsorted.sublist hsub
      exact hpw.imp (fun h => by simpa [searchLe, searchLeB] using h)
    · simp [searchData, ScoreDescending]
  · intro q f hb
    cases q with
    | none => rfl
    | some s =>
      have hs : jsTrim s = "" := by simpa [isBlankQ] using hb
      simp [compileSearchQuery, hs]
  · intro store score ps ls ss f incF hss
    unfold searchRun
    rcases searchPageVal ps with _ | pg
    · rfl
    · rcases searchLimitVal ls with _ | lim
      · rfl
      · dsimp only
        by_cases hc : 1 ≤ pg ∧ 1 ≤ lim
        · rw [if_pos hc, hss]
          rfl
        · rw [if_neg hc]

/-- C5 witness: the amended claim evaluated on the two-record sample store,
a blank query, and a relevance sort without a query. -/
theorem claim5_witness :
    ScoreDescending (searchData
      (searchRun [jA, jB] constScore (some "python") none none none {} false)) ∧
    compileSearchQuery (some "   ") {} = compileSearchQuery none {} ∧
    searchRun [jA, jB] constScore none none none none {} false = .err "Search failed" :=
  ⟨claim5_amended.1 [jA, jB] constScore (some "python") "python" none none none {}
      rfl (by decide) rfl,
   claim5_amended.2.1 (some "   ") {} (by decide),
   claim5_amended.2.2 [jA, jB] constScore none none none {} false rfl⟩

theorem bumped_id (ids : List Nat) (k : Job) :
    (if ids.contains k.id then { k with views := k.views + 1 } else k).id = k.id := by
  split <;> rfl

theorem findById_bumpViews (store : List Job) (ids : List Nat) (j : Job)
    (hnd : (store.map (fun x => x.id)).Nodup) (hj : j ∈ store) (hid : j.id ∈ ids) :
    findById (bumpViews store ids) j.id = some { j with views := j.views + 1 } := by
  induction store with
  | nil => exact absurd hj (List.not_mem_nil j)
  | cons k tl ih =>
    simp only [List.map_cons, List.nodup_cons] at hnd
    obtain ⟨hknot, hndtl⟩ := hnd
    rcases List.mem_cons.mp hj with hjk | hjtl
    · subst hjk
      have hcont : ids.contains j.id = true := List.elem_eq_true_of_mem hid
      show List.find? _ (_ :: bumpViews tl ids) = _
      rw [List.find?_cons_of_pos]
      · simp [hcont]
        intro hn
        exact absurd hid hn
      · have hida := bumped_id ids j
        simp only [hida]
        exact beq_self_eq_true j.id
    · have hne : k.id ≠ j.id := by
        intro he
        exact hknot (he ▸ List.mem_map_of_mem (fun x => x.id) hjtl)
      show List.find? _ (_ :: bumpViews tl ids) = _
      rw [List.find?_cons_of_neg]
      · exact ih hndtl hjtl
      · have hida := bumped_id ids k
        simp only [hida]
        simp [hne]

/-- C7 counterexample: when the awaited `updateMany` view-count bump throws,
both routes answer with the 500 error envelope instead of still delivering
the success response. -/
theorem claim7_counterexample :
    listingRun sampleStore {} true = .err "Failed to fetch jobs" ∧
    searchRun sampleStore constScore (some "engineer") none none none {} true =
      .err "Search failed" := by
  constructor
  · decide
  · decide

/-- C7 amended: on the successful path every record returned by a listing or
search response has its view counter incremented by exactly 1 in the store;
but the increment is awaited inside the route's try block, so a failing
increment turns the whole response into the error envelope rather than
being swallowed. -/
theorem claim7_views :
    (∀ store p data env ns j, listingRun store p false = .ok data env ns →
      (store.map (fun x => x.id)).Nodup → j ∈ data →
      findById ns j.id = some { j with views := j.views + 1 }) ∧
    (∀ store score q ps ls ss f data env ns sj,
      searchRun store score q ps ls ss f false = .ok data env ns →
      (store.map (fun x => x.id)).Nodup → sj ∈ data →
      findById ns sj.job.id = some { sj.job with views := sj.job.views + 1 }) ∧
    (∀ store p pg lim, listingPageVal p = some pg → listingLimitVal p = some lim →
      1 ≤ pg → 1 ≤ lim → listingRun store p true = .err "Failed to fetch jobs") ∧
    (∀ store score q ps ls ss f pg lim k, searchPageVal ps = some pg →
      searchLimitVal ls = some lim → 1 ≤ pg → 1 ≤ lim →
      searchSortKey (ss.getD "relevance") (compileSearchQuery q f).text.isSome = some k →
      searchRun store score q ps ls ss f true = .err "Search failed") := by
  refine ⟨?_, ?_, ?_, ?_⟩
  · intro store p data env ns j hrun hnd hj
    obtain ⟨pg, lim, _, _, hdata, hns⟩ := listingRun_ok_inv hrun
    have hjs : j ∈ store := by
      rw [hdata] at hj
      have h2 := mem_paginate hj
      rw [listingSorted, List.mem_insertionSort] at h2
      exact (List.mem_filter.mp h2).1
    have hidmem : j.id ∈ data.map (fun x => x.id) :=
      List.mem_map_of_mem (fun x => x.id) hj
    rw [hns]
    exact findById_bumpViews store _ j hnd hjs hidmem
  · intro store score q ps ls ss f data env ns sj hrun hnd hsj
    obtain ⟨pg, lim, k, _, _, _, hdata, hns⟩ := searchRun_ok_inv hrun
    have hjs : sj.job ∈ store := by
      rw [hdata] at hsj
      have h2 := mem_paginate hsj
      rw [searchSorted, List.mem_insertionSort, searchScored] at h2
      obtain ⟨a, ha, hae⟩ := List.mem_map.mp h2
      have : sj.job = a := by rw [← hae]
      rw [this]
      exact (List.mem_filter.mp ha).1
    have hidmem : sj.job.id ∈ data.map (fun x => x.job.id) :=
      List.mem_map_of_mem (fun x => x.job.id) hsj
    rw [hns]
    exact findById_bumpViews store _ sj.job hnd hjs hidmem
  · intro store p pg lim hp hl h1 h2
    unfold listingRun
    rw [hp, hl]
    dsimp only
    rw [if_pos ⟨h1, h2⟩, if_pos rfl]
  · intro store score q ps ls ss f pg lim k hp hl h1 h2 hk
    unfold searchRun
    rw [hp, hl]
    dsimp only
    rw [if_pos ⟨h1, h2⟩, hk]
    dsimp only
    rw [if_pos rfl]

/-- C7 witness: the successful-path increment and the error propagation
evaluated on the sample store with default parameters. -/
theorem claim7_witness :
    findById (bumpViews sampleStore [2, 1]) 1 = some { jA with views := 1 } ∧
    listingRun sampleStore {} true = .err "Failed to fetch jobs" :=
  ⟨claim7_views.1 sampleStore {} [jB, jA] ⟨1, 20, 2, 1, false, false⟩
      (bumpViews sampleStore [2, 1]) jA (by decide) (by decide) (by decide),
   claim7_views.2.2.1 sampleStore {} 1 20 (by decide) (by decide) (by decide) (by decide)⟩

theorem mem_distinctField {store : List Job} {q : String} {get : Job → String} {n : Nat}
    {v : String} (h : v ∈ distinctField store q get n) : SuggValueFrom store q get v := by
  unfold distinctField at h
  have h1 := List.mem_dedup.mp h
  obtain ⟨j, hj, hv⟩ := List.mem_map.mp h1
  have h2 := List.mem_filter.mp hj
  have h3 := h2.2
  simp only [Bool.and_eq_true, beq_iff_eq] at h3
  exact ⟨j, h2.1, h3.2, h3.1, hv⟩

theorem mem_distinctSkills {store : List Job} {q : String} {n : Nat} {v : String}
    (h : v ∈ distinctSkills store q n) : SuggSkillFrom store q v := by
  unfold distinctSkills at h
  have h1 := List.mem_dedup.mp h
  obtain ⟨l, hl, hvl⟩ := List.mem_flatten.mp h1
  obtain ⟨j, hj, hje⟩ := List.mem_map.mp hl
  have h2 := List.mem_filter.mp hj
  have h3 := h2.2
  simp only [Bool.and_eq_true, beq_iff_eq] at h3
  refine ⟨j, h2.1, h3.2, h3.1, ?_⟩
  rw [hje]
  exact hvl

theorem distinctField_family_ok (store : List Job) (q : String) (get : Job → String)
    (n : Nat) : PlainFamilyOk store q get (distinctField store q get n) := by
  refine ⟨List.nodup_dedup _, ?_⟩
  intro v hv
  exact mem_distinctField hv

theorem distinctSkills_family_ok (store : List Job) (q : String) (n : Nat) :
    SkillFamilyOk store q (distinctSkills store q n) := by
  refine ⟨List.nodup_dedup _, ?_⟩
  intro v hv
  exact mem_distinctSkills hv

/-- C9: the short-query half holds — under two trimmed characters the route
answers a successful empty list — and each family's values are distinct and
drawn from active matching jobs; but the per-family cap does not exist in
the program: Mongoose ignores `.limit(n)` on a `distinct` query, so a store
with eleven distinct matching titles gets all eleven back, where the claim
says at most 10. -/
theorem claim9_suggestions :
    (∀ store q ty, isShortQ q = true → suggestionsRun store q ty = .plain []) ∧
    (∀ store s vs, 2 ≤ (jsTrim s).length →
      suggestionsRun store (some s) (some "jobs") = .plain vs →
      PlainFamilyOk store (jsTrim s) (fun j => j.title) vs) ∧
    (∀ store s vs, 2 ≤ (jsTrim s).length →
      suggestionsRun store (some s) (some "companies") = .plain vs →
      PlainFamilyOk store (jsTrim s) (fun j => j.company) vs) ∧
    (∀ store s vs, 2 ≤ (jsTrim s).length →
      suggestionsRun store (some s) (some "locations") = .plain vs →
      PlainFamilyOk store (jsTrim s) (fun j => j.location) vs) ∧
    (∀ store s vs, 2 ≤ (jsTrim s).length →
      suggestionsRun store (some s) (some "skills") = .plain vs →
      SkillFamilyOk store (jsTrim s) vs) ∧
    (∀ store s ty l, 2 ≤ (jsTrim s).length →
      suggestionsRun store (some s) ty = .tagged l →
      TaggedFamilyOk store (jsTrim s) l) ∧
    (suggestionsRun suggOverflowStore (some "en") (some "jobs") =
      .plain ["Engineer A", "Engineer B", "Engineer C", "Engineer D", "Engineer E",
        "Engineer F", "Engineer G", "Engineer H", "Engineer I", "Engineer J",
        "Engineer K"] ∧
     (["Engineer A", "Engineer B", "Engineer C", "Engineer D", "Engineer E",
        "Engineer F", "Engineer G", "Engineer H", "Engineer I", "Engineer J",
        "Engineer K"] : List String).length = 11) := by
  refine ⟨?_, ?_, ?_, ?_, ?_, ?_, by decide, by decide⟩
  · intro store q ty hq
    cases q with
    | none => rfl
    | some s =>
      have hs : (jsTrim s).length < 2 := by simpa [isShortQ] using hq
      unfold suggestionsRun
      dsimp only
      rw [if_pos hs]
  · intro store s vs hlen hrun
    unfold suggestionsRun at hrun
    simp only [Option.getD_some] at hrun
    rw [if_neg (by omega)] at hrun
    injection hrun with h
    rw [← h]
    exact distinctField_family_ok store (jsTrim s) _ 10
  · intro store s vs hlen hrun
    unfold suggestionsRun at hrun
    simp only [Option.getD_some] at hrun
    rw [if_neg (by omega)] at hrun
    injection hrun with h
    rw [← h]
    exact distinctField_family_ok store (jsTrim s) _ 10
  · intro store s vs hlen hrun
    unfold suggestionsRun at hrun
    simp only [Option.getD_some] at hrun
    rw [if_neg (by omega)] at hrun
    injection hrun with h
    rw [← h]
    exact distinctField_family_ok store (jsTrim s) _ 10
  · intro store s vs hlen hrun
    unfold suggestionsRun at hrun
    simp only [Option.getD_some] at hrun
    rw [if_neg (by omega)] at hrun
    injection hrun with h
    rw [← h]
    exact distinctSkills_family_ok store (jsTrim s) 10
  · intro store s ty l hlen hrun
    unfold suggestionsRun at hrun
    dsimp only at hrun
    rw [if_neg (by omega)] at hrun
    split at hrun
    · exact absurd hrun (by simp)
    · exact absurd hrun (by simp)
    · exact absurd hrun (by simp)
    · exact absurd hrun (by simp)
    · injection hrun with h
      rw [← h]
      intro x hx
      rcases List.mem_append.mp hx with hx | hx4
      · rcases List.mem_append.mp hx with hx | hx3
        · rcases List.mem_append.mp hx with hx1 | hx2
          · obtain ⟨v, hv, he⟩ := List.mem_map.mp hx1
            refine Or.inl ⟨?_, ?_⟩
            · rw [← he]
            · rw [← he]
              exact mem_distinctField hv
          · obtain ⟨v, hv, he⟩ := List.mem_map.mp hx2
            refine Or.inr (Or.inl ⟨?_, ?_⟩)
            · rw [← he]
            · rw [← he]
              exact mem_distinctField hv
        · obtain ⟨v, hv, he⟩ := List.mem_map.mp hx3
          refine Or.inr (Or.inr (Or.inl ⟨?_, ?_⟩))
          · rw [← he]
          · rw [← he]
            exact mem_distinctField hv
      · obtain ⟨v, hv, he⟩ := List.mem_map.mp hx4
        refine Or.inr (Or.inr (Or.inr ⟨?_, ?_⟩))
        · rw [← he]
        · rw [← he]
          exact mem_distinctSkills hv

/-- C9 witness: the short-query empty list, the active-sourced distinct
values of a plain family, and the tagged `all` sourcing, at concrete
inputs. -/
theorem claim9_witness :
    suggestionsRun sampleStore (some "x") none = .plain [] ∧
    PlainFamilyOk sampleStore (jsTrim "en") (fun j => j.title)
      ["Senior Engineer", "Engineer II"] ∧
    TaggedFamilyOk sampleStore (jsTrim "en")
      [("job", "Senior Engineer"), ("job", "Engineer II")] :=
  ⟨claim9_suggestions.1 sampleStore (some "x") none (by decide),
   claim9_suggestions.2.1 sampleStore "en" ["Senior Engineer", "Engineer II"]
     (by decide) (by decide),
   claim9_suggestions.2.2.2.2.2.1 sampleStore "en" none
     [("job", "Senior Engineer"), ("job", "Engineer II")] (by decide) (by decide)⟩


/-- C4 witness: the amended claim evaluated at the malformed inputs. -/
theorem claim4_witness :
    (compileListingFilter { minSalary := some "abc" }).salaryMin =
      some (parseIntJS "abc") ∧
    (compileSearchQuery none { postedAfter := some "garbage" }).filt.postedAfter =
      some (parseDateJS "garbage") :=
  ⟨(claim4_amended { minSalary := some "abc" } {} none "abc").1 rfl (by decide),
   (claim4_amended {} { postedAfter := some "garbage" } none "garbage").2.2.1 rfl
     (by decide)⟩

end JobAssistant
